import Mathlib

set_option maxRecDepth 16384

/-!
Verification development for the CICERO article translator (`src/app.py`).

The Python source is shallowly embedded here:

* `clean_text` (app.py lines 42-75) is an ordered chain of `re.sub` calls.
  Each regex substitution is embedded as an executable function on `List Char`
  that reproduces the Python `re` semantics for that specific pattern
  (leftmost, non-overlapping global replacement; greedy `\s*`/`\s+` with the
  backtracking Python's engine performs; lazy `.*?`/`[^*]+?`; `.` does not
  match a newline; `$` matches at the end of the string, or just before a
  final newline).  Whitespace (`\s`, `str.strip`) is modelled by the ASCII
  whitespace class space/tab/newline/carriage-return/vertical-tab/form-feed.
* `get_translation_and_analysis` (lines 122-215) is embedded as `runTAT`,
  parameterised by the API gateway (`String → Except String PyInput`, the
  exception message on failure, the raw `response.content` value on success)
  and by the list of elements that `extract_translatable_content` produced
  (that function is HTML scraping of one website's markup, outside the
  sanitization/pipeline logic under study).  `runTAT` also records the trace
  of prompts actually sent to the gateway.  The surrounding `try/except`
  that converts any exception into `st.error(...)` plus `return None, None`
  is the final `match` in `getTranslationAndAnalysis`.
* the Translate-button handler of `main` (lines 284-295) is `translateClick`.
-/

/-- ASCII whitespace for Python's `\s` class and `str.strip`. -/
def isWSb (c : Char) : Bool :=
  c == ' ' || c == '\t' || c == '\n' || c == '\r' || c == '\x0b' || c == '\x0c'

/-- Quote class `['"]` used by the TextBlock-wrapper regex. -/
def isQuote (c : Char) : Bool :=
  c == '\'' || c == '"'

/-- Does the second list start with the first one (literal prefix test)? -/
def litPre : List Char → List Char → Bool
  | [], _ => true
  | _ :: _, [] => false
  | a :: as, b :: bs => a == b && litPre as bs

/-- `text.strip()` from the left: drop the leading whitespace run. -/
def dropLeadWS (l : List Char) : List Char := l.dropWhile isWSb

/-- Drop the trailing whitespace run.  This is both the effect of
`re.sub(r'\s+$', '', text)` (line 58; greedy `\s+` always extends a trailing
match through the final newline, so the `$`-before-final-newline case adds
nothing) and the right half of `str.strip`. -/
def dropTrailWS (l : List Char) : List Char := (l.reverse.dropWhile isWSb).reverse

/-- `text.strip()` (line 72). -/
def pyStrip (l : List Char) : List Char := dropTrailWS (dropLeadWS l)

/-- `pyStrip` on `String`s, for `element['text'].strip()` truthiness tests. -/
def pyStripS (s : String) : String := String.mk (pyStrip s.data)

/-- Emit a pending run of `n` newlines after `re.sub(r'\n{3,}', '\n\n', ...)`:
a run of three or more newlines becomes exactly two. -/
def emitNL (n : Nat) : List Char :=
  if 3 ≤ n then ['\n', '\n'] else List.replicate n '\n'

/-- Worker for `re.sub(r'\n{3,}', '\n\n', text)`: `n` counts the newline run
read so far. -/
def subNL3core : Nat → List Char → List Char
  | n, [] => emitNL n
  | n, c :: cs =>
    if c = '\n' then subNL3core (n + 1) cs
    else emitNL n ++ (c :: subNL3core 0 cs)

/-- `re.sub(r'\n{3,}', '\n\n', text)` (lines 56 and 73). -/
def subNL3 (l : List Char) : List Char := subNL3core 0 l

/-- Global leftmost non-overlapping substitution: `m` attempts a match at the
current position, returning the replacement text and the rest of the input
after the match.  On failure the scanner advances one character, exactly as
`re.sub` does.  Every matcher below consumes at least one character, so fuel
equal to the input length suffices. -/
def globalSub (m : List Char → Option (List Char × List Char)) :
    Nat → List Char → List Char
  | _, [] => []
  | 0, l => l
  | fuel + 1, c :: cs =>
    match m (c :: cs) with
    | some (repl, rest) => repl ++ globalSub m fuel rest
    | none => c :: globalSub m fuel cs

/-- Literal head of the TextBlock wrapper pattern. -/
def tbLit : List Char := "TextBlock(text=".data

/-- Lazy scan of `(.*?)['"]\)`: the shortest run of non-newline characters
followed by a quote and a closing parenthesis.  Returns the captured group
and the rest after the `)`. -/
def tbClose : Nat → List Char → Option (List Char × List Char)
  | 0, _ => none
  | _ + 1, [] => none
  | _ + 1, [_] => none
  | fuel + 1, c1 :: c2 :: rest =>
    if isQuote c1 && c2 == ')' then some ([], rest)
    else if c1 == '\n' then none
    else
      match tbClose fuel (c2 :: rest) with
      | some (cap, r) => some (c1 :: cap, r)
      | none => none

/-- One match of `re.sub(r'TextBlock\(text=[\'"](.*?)[\'"]\)', r'\1', text)`
(line 50): the replacement is the captured inner text. -/
def matchTextBlock (l : List Char) : Option (List Char × List Char) :=
  if litPre tbLit l then
    match l.drop tbLit.length with
    | q :: rest => if isQuote q then tbClose rest.length rest else none
    | [] => none
  else none

/-- Tail of the markdown-bold pattern, `\s*\*\*`: a greedy whitespace run
followed by the closing `**` (backtracking inside the run cannot help, since
a whitespace character is never `*`). -/
def boldTail (l : List Char) : Option (List Char) :=
  match l.drop (l.takeWhile isWSb).length with
  | '*' :: '*' :: r => some r
  | _ => none

/-- Lazy `([^*]+?)` followed by `boldTail`: grow the capture one character at
a time (never `*`) until the tail matches.  Returns capture and rest. -/
def boldFindB : Nat → List Char → Option (List Char × List Char)
  | 0, _ => none
  | _ + 1, [] => none
  | fuel + 1, c :: rest =>
    if c == '*' then none
    else
      match boldTail rest with
      | some r => some ([c], r)
      | none =>
        match boldFindB fuel rest with
        | some (b, r) => some (c :: b, r)
        | none => none

/-- Greedy `\s*` after the opening `**`: try consuming `j` whitespace
characters, longest first, before looking for the capture. -/
def boldTryW : Nat → List Char → Option (List Char × List Char)
  | 0, rest => boldFindB rest.length rest
  | j + 1, rest =>
    match boldFindB (rest.drop (j + 1)).length (rest.drop (j + 1)) with
    | some r => some r
    | none => boldTryW j rest

/-- One match of `re.sub(r'\*\*\s*([^*]+?)\s*\*\*', r'\1', text)` (line 51). -/
def matchBold : List Char → Option (List Char × List Char)
  | '*' :: '*' :: rest => boldTryW (rest.takeWhile isWSb).length rest
  | _ => none

def usOpenLit : List Char := "<userStyle>".data
def usCloseLit : List Char := "</userStyle>".data

/-- Lazy `.*?</userStyle>`: shortest run of non-newline characters up to the
closing tag; returns the rest after it. -/
def usScan : Nat → List Char → Option (List Char)
  | 0, _ => none
  | fuel + 1, l =>
    if litPre usCloseLit l then some (l.drop usCloseLit.length)
    else
      match l with
      | [] => none
      | c :: cs => if c == '\n' then none else usScan fuel cs

/-- One match of `re.sub(r'<userStyle>.*?</userStyle>', '', text)` (line 52):
the whole tagged region is deleted. -/
def matchUserStyle (l : List Char) : Option (List Char × List Char) :=
  if litPre usOpenLit l then
    match usScan (l.drop usOpenLit.length).length (l.drop usOpenLit.length) with
    | some r => some ([], r)
    | none => none
  else none

/-- One match of `re.sub(r'\(\s*\)', '', text)` (line 53): an opening
parenthesis, a whitespace run, a closing parenthesis, deleted. -/
def matchEmptyParens : List Char → Option (List Char × List Char)
  | '(' :: rest =>
    match rest.drop (rest.takeWhile isWSb).length with
    | ')' :: r => some ([], r)
    | _ => none
  | _ => none

/-- One match of `re.sub(r'\s*\n\s*', '\n', text)` (line 59).  A match can
only start at the head of a whitespace run; the greedy `\s*`s make the match
swallow the whole run, which must contain a newline, replaced by `'\n'`. -/
def matchWsNL (l : List Char) : Option (List Char × List Char) :=
  let w := l.takeWhile isWSb
  if w.contains '\n' then some (['\n'], l.drop w.length) else none

/-- One match of `re.sub(r'>\s+<', '><', text)` (lines 63 and 180). -/
def matchGtWsLt : List Char → Option (List Char × List Char)
  | '>' :: rest =>
    let w := rest.takeWhile isWSb
    if w.isEmpty then none
    else
      match rest.drop w.length with
      | '<' :: r => some (['>', '<'], r)
      | _ => none
  | _ => none

/-- Backtracking case of `>\s+([^<])`: when the character after the greedy
whitespace run is `<` (or the input ends), the engine shortens `\s+` by one
and captures the run's last whitespace character as the `[^<]` group. -/
def gtWsBack (w after : List Char) : Option (List Char × List Char) :=
  if 2 ≤ w.length then
    match w.getLast? with
    | some wl => some (['>', wl], after)
    | none => none
  else none

/-- One match of `re.sub(r'>\s+([^<])', r'>\1', text)` (line 64). -/
def matchGtWsOther : List Char → Option (List Char × List Char)
  | '>' :: rest =>
    let w := rest.takeWhile isWSb
    if w.isEmpty then none
    else
      match rest.drop w.length with
      | c :: r => if c == '<' then gtWsBack w (c :: r) else some (['>', c], r)
      | [] => gtWsBack w []
  | _ => none

/-- One match of `re.sub(r'([^>])\s+<', r'\1<', text)` (line 65). -/
def matchOtherWsLt : List Char → Option (List Char × List Char)
  | c :: rest =>
    if c == '>' then none
    else
      let w := rest.takeWhile isWSb
      if w.isEmpty then none
      else
        match rest.drop w.length with
        | '<' :: r => some ([c, '<'], r)
        | _ => none
  | [] => none

/-- One match of `re.sub(r'\s+', ' ', text)` (line 68): a maximal whitespace
run becomes a single space. -/
def matchCollapseWS : List Char → Option (List Char × List Char)
  | c :: rest =>
    if isWSb c then some ([' '], rest.drop (rest.takeWhile isWSb).length)
    else none
  | [] => none

/-- One match of `re.sub(r'\. ([A-Z])', '.\n\n\\1', text)` (line 69):
period, single space, capital letter, rewritten with a double line break. -/
def matchSentence : List Char → Option (List Char × List Char)
  | '.' :: ' ' :: c :: r =>
    if 'A' ≤ c && c ≤ 'Z' then some (['.', '\n', '\n', c], r) else none
  | _ => none

/-- All regex steps of `clean_text` before the final `strip` (lines 49-69). -/
def preClean (l : List Char) (preserveHtml : Bool) : List Char :=
  let t := globalSub matchTextBlock l.length l
  let t := globalSub matchBold t.length t
  let t := globalSub matchUserStyle t.length t
  let t := globalSub matchEmptyParens t.length t
  let t := subNL3 t
  let t := dropLeadWS t
  let t := dropTrailWS t
  let t := globalSub matchWsNL t.length t
  if preserveHtml then
    let a := globalSub matchGtWsLt t.length t
    let a := globalSub matchGtWsOther a.length a
    globalSub matchOtherWsLt a.length a
  else
    let a := globalSub matchCollapseWS t.length t
    globalSub matchSentence a.length a

/-- Full character pipeline of `clean_text`: the regex chain, then
`text.strip()` and the final `\n{3,}` reduction (lines 72-73). -/
def cleanChars (l : List Char) (preserveHtml : Bool) : List Char :=
  subNL3 (pyStrip (preClean l preserveHtml))

/-- The duck-typed argument of `clean_text`: a plain string, a list of
content fragments (each modelled by its `str(item)` rendering, joined with
single spaces at line 45), or any other value modelled by its `str(...)`
rendering (line 47). -/
inductive PyInput where
  | ofString (s : String)
  | ofList (items : List String)
  | other (stringRep : String)
deriving DecidableEq

/-- Lines 44-47 of `clean_text`: normalize the input to one string. -/
def stringifyInput : PyInput → String
  | .ofString s => s
  | .ofList items => String.intercalate " " items
  | .other r => r

/-- `clean_text(text, preserve_html)` (app.py lines 42-75). -/
def clean_text (text : PyInput) (preserve_html : Bool) : String :=
  String.mk (cleanChars (stringifyInput text).data preserve_html)

/-- Interleave-replacement used by Python's `str.replace` with an empty
pattern: the replacement goes before every character and at the end. -/
def replEmpty (repl : List Char) : List Char → List Char
  | [] => repl
  | c :: cs => repl ++ c :: replEmpty repl cs

/-- Worker for `str.replace(old, new)` with a non-empty `old`: leftmost,
non-overlapping, replace all. -/
def pyReplaceCore : Nat → List Char → List Char → List Char → List Char
  | 0, s, _, _ => s
  | _ + 1, [], _, _ => []
  | fuel + 1, c :: cs, pat, repl =>
    if litPre pat (c :: cs) then
      repl ++ pyReplaceCore fuel ((c :: cs).drop pat.length) pat repl
    else c :: pyReplaceCore fuel cs pat repl

/-- `s.replace(pat, repl)` (line 168). -/
def pyReplaceS (s pat repl : String) : String :=
  if pat.data.isEmpty then String.mk (replEmpty repl.data s.data)
  else String.mk (pyReplaceCore s.data.length s.data pat.data repl.data)

/-- Tail `\s*type=['"]text['"]` of the post-translation metadata regex. -/
def typeTail (l : List Char) : Option (List Char) :=
  match l.drop (l.takeWhile isWSb).length with
  | 't' :: 'y' :: 'p' :: 'e' :: '=' :: q1 :: 't' :: 'e' :: 'x' :: 't' :: q2 :: r =>
    if isQuote q1 && isQuote q2 then some r else none
  | _ => none

/-- One match of `re.sub(r"['\"]?,?\s*type=['\"]text['\"]", '', ...)`
(line 176): the optional quote and optional comma are tried present-first,
as the greedy `?` quantifiers do. -/
def matchTypeMeta (l : List Char) : Option (List Char × List Char) :=
  let attempt := fun (l2 : List Char) =>
    match l2 with
    | ',' :: r2 =>
      match typeTail r2 with
      | some r => some r
      | none => typeTail l2
    | _ => typeTail l2
  let res :=
    match l with
    | c :: r1 =>
      if isQuote c then
        match attempt r1 with
        | some r => some r
        | none => attempt l
      else attempt l
    | [] => attempt l
  res.map (fun r => ([], r))

/-- One match of `re.sub(r"',\s*$", '', ...)` (line 177): a quote and comma
whose remaining suffix is all whitespace; the greedy `\s*$` swallows it. -/
def matchQuoteCommaEnd : List Char → Option (List Char × List Char)
  | '\'' :: ',' :: rest =>
    if (rest.drop (rest.takeWhile isWSb).length).isEmpty then some ([], [])
    else none
  | _ => none

/-- `re.sub(r"^'", '', ...)` (line 178): drop one leading apostrophe. -/
def subLeadApos : List Char → List Char
  | '\'' :: r => r
  | l => l

/-- One match of `re.sub(r',\s*$', '', ...)` (line 179). -/
def matchCommaEnd : List Char → Option (List Char × List Char)
  | ',' :: rest =>
    if (rest.drop (rest.takeWhile isWSb).length).isEmpty then some ([], [])
    else none
  | _ => none

/-- Final cleanup pass over the stitched translated HTML (lines 176-180). -/
def finalHtmlCleanup (s : String) : String :=
  let l := globalSub matchTypeMeta s.data.length s.data
  let l := globalSub matchQuoteCommaEnd l.length l
  let l := subLeadApos l
  let l := globalSub matchCommaEnd l.length l
  String.mk (globalSub matchGtWsLt l.length l)

/-- One record of `extract_translatable_content`'s output (lines 96-100). -/
structure Element where
  html : String
  text : String
  tag : String
deriving DecidableEq

def headingTags : List String := ["h1", "h2", "h3", "h4", "h5", "h6"]

/-- Suffix appended to the chunk prompt for headings (line 153). -/
def headingNote : String :=
  "\nThis is a title/heading - translate only the text without adding any metadata:"

/-- The chunked-translation base prompt (lines 130-139), the f-string with
its literal indentation. -/
def htmlTranslationPrompt (fromLang toLang : String) : String :=
  "Translate this content from " ++ fromLang ++ " to " ++ toLang ++
  ".\n            Important:\n            - Translate only the actual content\n            - Preserve HTML structure exactly\n            - Do not add any technical annotations or metadata\n            - Do not add phrases like 'type=text' or similar\n            - Keep heading formats but translate the text\n            - Maintain the same paragraph structure\n            For the title/heading, translate directly without adding any metadata or quotes.\n            "

/-- The whole-text translation prompt (line 189). -/
def translationPrompt (fromLang toLang inputText : String) : String :=
  "Translate this from " ++ fromLang ++ " to " ++ toLang ++ ":\n\n" ++ inputText

/-- The message content for one chunk (lines 152-155 and 163). -/
def elementPrompt (base : String) (e : Element) : String :=
  (if e.tag ∈ headingTags then base ++ headingNote else base) ++
    "\n\nText to translate: " ++ e.text

/-- The analysis prompt (lines 202-206): an f-string with no interpolated
values, hence one fixed string. -/
def analysisPrompt : String :=
  "Analyze this translation:\n                Provide brief analysis focusing on:\n                1. Key terminology translations for climate science\n                2. Any challenging aspects specific to CICERO content\n                3. Suggestions for improvement"

/-- The chunk loop of lines 147-170: for each element with non-empty
stripped text, send its prompt to the gateway, clean the response (the flag
defaults to `False` at line 167) and splice it into the accumulated HTML.
Returns the trace of prompts actually sent and either the final HTML or the
first gateway error, which aborts the loop as a raised exception does. -/
def translateLoopT (g : String → Except String PyInput) (base : String) :
    String → List Element → List String × Except String String
  | acc, [] => ([], Except.ok acc)
  | acc, e :: rest =>
    if pyStripS e.text = "" then translateLoopT g base acc rest
    else
      match g (elementPrompt base e) with
      | Except.error err => ([elementPrompt base e], Except.error err)
      | Except.ok content =>
        let r := translateLoopT g base
          (pyReplaceS acc e.text (clean_text content false)) rest
        (elementPrompt base e :: r.1, r.2)

/-- The translation half of `get_translation_and_analysis` (lines 127-193):
either the element-by-element chunked path followed by the final HTML
cleanup, or one whole-text call. -/
def translateStep (g : String → Except String PyInput)
    (input fromLang toLang : String) (preserveHtml : Bool)
    (els : List Element) : List String × Except String String :=
  if preserveHtml then
    let r := translateLoopT g (htmlTranslationPrompt fromLang toLang) input els
    (r.1,
      match r.2 with
      | Except.ok th => Except.ok (finalHtmlCleanup th)
      | Except.error e => Except.error e)
  else
    match g (translationPrompt fromLang toLang input) with
    | Except.error e =>
      ([translationPrompt fromLang toLang input], Except.error e)
    | Except.ok c =>
      ([translationPrompt fromLang toLang input],
        Except.ok (clean_text c false))

/-- The analysis call of lines 196-210: issued only when translation
succeeded, always with the fixed `analysisPrompt`, and its response goes
through `clean_text` with the default flag. -/
def withAnalysis (g : String → Except String PyInput) :
    List String × Except String String →
      List String × Except String (String × String)
  | (tr, Except.error e) => (tr, Except.error e)
  | (tr, Except.ok th) =>
    match g analysisPrompt with
    | Except.error e => (tr ++ [analysisPrompt], Except.error e)
    | Except.ok c => (tr ++ [analysisPrompt], Except.ok (th, clean_text c false))

/-- The body of `get_translation_and_analysis` with its gateway-call trace. -/
def runTAT (g : String → Except String PyInput)
    (input fromLang toLang : String) (preserveHtml : Bool)
    (els : List Element) : List String × Except String (String × String) :=
  withAnalysis g (translateStep g input fromLang toLang preserveHtml els)

/-- `get_translation_and_analysis` (lines 122-215): any exception reaches
the `except` clause, which shows `st.error(f"Translation error: {str(e)}")`
and returns `None, None`.  Result: (translation, analysis, error shown). -/
def getTranslationAndAnalysis (g : String → Except String PyInput)
    (input fromLang toLang : String) (preserveHtml : Bool)
    (els : List Element) : Option String × Option String × Option String :=
  match (runTAT g input fromLang toLang preserveHtml els).2 with
  | Except.ok (th, a) => (some th, some a, none)
  | Except.error e => (none, none, some ("Translation error: " ++ e))

/-- Observable outcome of one press of the Translate button. -/
structure ClickResult where
  translation : Option String
  analysis : Option String
  trace : List String
  messages : List String
deriving DecidableEq

/-- The Translate-button handler of `main` (lines 284-295):
`if st.session_state.input_text:` guards the whole call, so a `None` or
empty-string state does nothing at all — no gateway call and no message.
`messages` collects the `st.error` outputs shown to the user. -/
def translateClick (g : String → Except String PyInput)
    (stateInput : Option String) (fromLang toLang : String)
    (preserveHtml : Bool) (els : List Element) : ClickResult :=
  match stateInput with
  | none => ⟨none, none, [], []⟩
  | some s =>
    if s = "" then ⟨none, none, [], []⟩
    else
      let r := runTAT g s fromLang toLang preserveHtml els
      match r.2 with
      | Except.ok (th, a) => ⟨some th, some a, r.1, []⟩
      | Except.error e => ⟨none, none, r.1, ["Translation error: " ++ e]⟩

/-- `needle` occurs literally inside `hay`. -/
def ContainsS (needle hay : String) : Prop :=
  List.IsInfix needle.data hay.data

/-- Head of the list is not whitespace (vacuously true for `[]`). -/
def noWSh : List Char → Bool
  | [] => true
  | c :: _ => !(isWSb c)

/-- Neither end of the string is a whitespace character. -/
def noBoundWS (s : String) : Bool :=
  noWSh s.data && noWSh s.data.reverse

theorem head_append_left (a b : List Char) (h : a ≠ []) :
    (a ++ b).head? = a.head? := by
  cases a with
  | nil => exact absurd rfl h
  | cons c cs => rfl

theorem noWSh_dropWhile (l : List Char) : noWSh (l.dropWhile isWSb) = true := by
  induction l with
  | nil => rfl
  | cons c cs ih =>
    by_cases h : isWSb c = true
    · simpa [List.dropWhile, h] using ih
    · simp [List.dropWhile, h, noWSh]

theorem noWSh_rev_dropWhile (y : List Char) (h : noWSh y.reverse = true) :
    noWSh (y.dropWhile isWSb).reverse = true := by
  cases hd : (y.dropWhile isWSb).reverse with
  | nil => rfl
  | cons c cs =>
    have hsplit : y.takeWhile isWSb ++ y.dropWhile isWSb = y :=
      List.takeWhile_append_dropWhile isWSb y
    have hrev : y.reverse = (c :: cs) ++ (y.takeWhile isWSb).reverse := by
      rw [← hd]
      calc y.reverse = (y.takeWhile isWSb ++ y.dropWhile isWSb).reverse := by
            rw [hsplit]
        _ = (y.dropWhile isWSb).reverse ++ (y.takeWhile isWSb).reverse :=
            List.reverse_append _ _
    rw [hrev] at h
    simpa [noWSh] using h

theorem noWSh_pyStrip (l : List Char) : noWSh (pyStrip l) = true := by
  have h1 : noWSh ((l.dropWhile isWSb).reverse.dropWhile isWSb).reverse = true := by
    apply noWSh_rev_dropWhile
    rw [List.reverse_reverse]
    exact noWSh_dropWhile l
  simpa [pyStrip, dropTrailWS, dropLeadWS] using h1

theorem noWSh_pyStrip_rev (l : List Char) : noWSh (pyStrip l).reverse = true := by
  have : (pyStrip l).reverse = (l.dropWhile isWSb).reverse.dropWhile isWSb := by
    simp [pyStrip, dropTrailWS, dropLeadWS]
  rw [this]
  exact noWSh_dropWhile _

theorem getLast_cons_ne (a : Char) (t : List Char) (h : t ≠ []) :
    (a :: t).getLast? = t.getLast? := by
  cases t with
  | nil => exact absurd rfl h
  | cons b t' => rw [List.getLast?_cons_cons]

theorem subNL3core_ne_nil (l : List Char) :
    ∀ n : Nat, l ≠ [] ∨ n ≠ 0 → subNL3core n l ≠ [] := by
  induction l with
  | nil =>
    intro n h
    rcases h with h | h
    · exact absurd rfl h
    · obtain ⟨m, rfl⟩ := Nat.exists_eq_succ_of_ne_zero h
      by_cases h3 : 3 ≤ m + 1 <;> simp [subNL3core, emitNL, h3, List.replicate]
  | cons c cs ih =>
    intro n _
    by_cases hc : c = '\n'
    · rw [subNL3core, if_pos hc]
      exact ih (n + 1) (Or.inr (Nat.succ_ne_zero n))
    · rw [subNL3core, if_neg hc]
      simp

theorem subNL3core_getLast (l : List Char) :
    ∀ (n : Nat) (c : Char), l.getLast? = some c → c ≠ '\n' →
      (subNL3core n l).getLast? = some c := by
  induction l with
  | nil => intro n c h _; simp at h
  | cons a t ih =>
    intro n c h hc
    by_cases htne : t = []
    · subst htne
      have hac : a = c := by simpa using h
      subst hac
      simp only [subNL3core]
      rw [if_neg hc]
      have h0 : emitNL 0 = ([] : List Char) := by simp [emitNL]
      rw [h0]
      exact List.getLast?_concat _
    · have hlt : t.getLast? = some c := by
        rw [getLast_cons_ne a t htne] at h
        exact h
      by_cases ha : a = '\n'
      · simp only [subNL3core]
        rw [if_pos ha]
        exact ih (n + 1) c hlt hc
      · simp only [subNL3core]
        rw [if_neg ha]
        have hX : subNL3core 0 t ≠ [] := subNL3core_ne_nil t 0 (Or.inl htne)
        rw [List.getLast?_append_of_ne_nil (emitNL n) (by simp)]
        rw [getLast_cons_ne a _ hX]
        exact ih 0 c hlt hc

theorem noWSh_subNL3 (l : List Char) (h : noWSh l = true) :
    noWSh (subNL3 l) = true := by
  cases l with
  | nil => rfl
  | cons c cs =>
    have hc : isWSb c = false := by
      simp only [noWSh, Bool.not_eq_true'] at h
      exact h
    have hcn : c ≠ '\n' := by
      intro hcc
      rw [hcc] at hc
      simp [isWSb] at hc
    rw [subNL3, subNL3core, if_neg hcn]
    have : emitNL 0 = [] := by simp [emitNL, List.replicate]
    rw [this]
    simpa [noWSh] using hc

theorem noWSh_rev_subNL3 (l : List Char) (h : noWSh l.reverse = true) :
    noWSh (subNL3 l).reverse = true := by
  cases hl : l.reverse with
  | nil =>
    have : l = [] := by simpa using congrArg List.reverse hl
    subst this
    rfl
  | cons c cs =>
    have hc : isWSb c = false := by
      rw [hl] at h
      simp only [noWSh, Bool.not_eq_true'] at h
      exact h
    have hlast : l.getLast? = some c := by
      rw [← List.head?_reverse, hl]; rfl
    have hcn : c ≠ '\n' := by
      intro hcc
      rw [hcc] at hc
      simp [isWSb] at hc
    have hres : (subNL3 l).getLast? = some c :=
      subNL3core_getLast l 0 c hlast hcn
    have hresrev : (subNL3 l).reverse.head? = some c := by
      rw [List.head?_reverse]; exact hres
    cases hr : (subNL3 l).reverse with
    | nil => simp [hr] at hresrev
    | cons d ds =>
      rw [hr] at hresrev
      simp only [List.head?, Option.some.injEq] at hresrev
      subst hresrev
      simpa [noWSh] using hc

theorem noBoundWS_strip_nl3 (l : List Char) :
    noBoundWS (String.mk (subNL3 (pyStrip l))) = true := by
  have h1 : noWSh (subNL3 (pyStrip l)) = true :=
    noWSh_subNL3 _ (noWSh_pyStrip l)
  have h2 : noWSh (subNL3 (pyStrip l)).reverse = true :=
    noWSh_rev_subNL3 _ (noWSh_pyStrip_rev l)
  simp [noBoundWS, h1, h2]

theorem translateLoopT_append_snd (g : String → Except String PyInput)
    (base : String) (xs : List Element) :
    ∀ (ys : List Element) (acc a2 : String),
      (translateLoopT g base acc xs).2 = Except.ok a2 →
      (translateLoopT g base acc (xs ++ ys)).2 = (translateLoopT g base a2 ys).2 := by
  induction xs with
  | nil =>
    intro ys acc a2 h
    simp only [translateLoopT] at h
    cases h
    rfl
  | cons e rest ih =>
    intro ys acc a2 h
    by_cases hs : pyStripS e.text = ""
    · rw [List.cons_append]
      rw [translateLoopT, if_pos hs] at h ⊢
      exact ih ys acc a2 h
    · rw [List.cons_append]
      rw [translateLoopT, if_neg hs] at h ⊢
      cases hg : g (elementPrompt base e) with
      | error err => rw [hg] at h; simp at h
      | ok content =>
        rw [hg] at h
        simp only at h ⊢
        exact ih ys _ a2 h

theorem translateLoopT_error_head (g : String → Except String PyInput)
    (base acc err : String) (e : Element) (post : List Element)
    (hne : pyStripS e.text ≠ "")
    (hg : g (elementPrompt base e) = Except.error err) :
    (translateLoopT g base acc (e :: post)).2 = Except.error err := by
  rw [translateLoopT, if_neg hne, hg]

theorem withAnalysis_error (g : String → Except String PyInput)
    (s : List String × Except String String) (err : String)
    (h : s.2 = Except.error err) :
    (withAnalysis g s).2 = Except.error err := by
  obtain ⟨tr, res⟩ := s
  simp only at h
  subst h
  rfl

theorem withAnalysis_ok_trace (g : String → Except String PyInput)
    (s : List String × Except String String) (r : String × String)
    (h : (withAnalysis g s).2 = Except.ok r) :
    (withAnalysis g s).1.getLast? = some analysisPrompt := by
  obtain ⟨tr, res⟩ := s
  cases res with
  | error e => simp [withAnalysis] at h
  | ok th =>
    cases hg : g analysisPrompt with
    | error e => simp [withAnalysis, hg] at h
    | ok c =>
      simp only [withAnalysis, hg]
      exact List.getLast?_concat tr

deriving instance DecidableEq for Except

/-- A gateway stub that answers every prompt with the fragment `OK`. -/
def gOk : String → Except String PyInput :=
  fun _ => Except.ok (PyInput.ofString "OK")

def elA : Element := ⟨"<p>a</p>", "a", "p"⟩
def elB : Element := ⟨"<p>b</p>", "b", "p"⟩
def elC : Element := ⟨"<p>c</p>", "c", "p"⟩

/-- A three-chunk document whose elements are `a`, `b`, `c`. -/
def elsABC : List Element := [elA, elB, elC]

/-- A gateway stub that fails exactly on the prompt for chunk `b` and
translates everything else to `T`. -/
def gFail : String → Except String PyInput := fun p =>
  if p = elementPrompt (htmlTranslationPrompt "Norwegian" "English") elB
  then Except.error "boom" else Except.ok (PyInput.ofString "T")

/-- C1: the claim says `clean_text` is idempotent for every string and
either flag.  It is not: on `"(( ))"` the empty-parentheses regex
`\(\s*\)` deletes the inner `( )`, leaving `"()"`, and a second application
deletes that too, returning `""`.  This theorem evaluates the code at that
failing input. -/
theorem cleanText_second_application_differs :
    clean_text (PyInput.ofString (clean_text (PyInput.ofString "(( ))") false)) false
      ≠ clean_text (PyInput.ofString "(( ))") false := by decide

/-- C2 counterexample: the wrapper regex at line 50 matches only the literal
name `TextBlock`, so the claimed input `Wrapper(text='Hello world')` passes
through unchanged instead of becoming `Hello world`. -/
theorem wrapper_pattern_not_stripped :
    clean_text (PyInput.ofString "Wrapper(text='Hello world')") false
      ≠ "Hello world" := by decide

/-- C2 amended: the sanitizer strips exactly the `TextBlock(text='...')`
wrapper, accepting either quote style, and requires the closing quote to be
followed directly by `)` — a trailing metadata field is not discarded but
leaks into the output. -/
theorem textBlock_wrapper_stripped :
    clean_text (PyInput.ofString "TextBlock(text='Hello world')") false
        = "Hello world" ∧
    clean_text (PyInput.ofString "TextBlock(text=\"Hello world\")") false
        = "Hello world" ∧
    clean_text (PyInput.ofString "TextBlock(text='Hi', type='text')") false
        = "Hi', type='text" :=
  ⟨by decide, by decide, by decide⟩

/-- C3: whenever a gateway call fails — in particular on one chunk of a
chunked document after the earlier chunks succeeded — the whole
operation returns no translation and no analysis and shows the error
message; and in general any failing run of the pipeline yields
`(none, none, some message)`, never a partial result. -/
theorem gateway_failure_yields_nothing
    (g : String → Except String PyInput) (input fromLang toLang : String)
    (els pre post : List Element) (efail : Element) (acc2 err : String)
    (hels : els = pre ++ efail :: post)
    (hpre : (translateLoopT g (htmlTranslationPrompt fromLang toLang) input pre).2
        = Except.ok acc2)
    (hne : pyStripS efail.text ≠ "")
    (hfail : g (elementPrompt (htmlTranslationPrompt fromLang toLang) efail)
        = Except.error err) :
    getTranslationAndAnalysis g input fromLang toLang true els
        = (none, none, some ("Translation error: " ++ err)) ∧
    ∀ (g2 : String → Except String PyInput) (i2 f2 t2 : String) (p2 : Bool)
        (e2 : List Element) (msg : String),
      (runTAT g2 i2 f2 t2 p2 e2).2 = Except.error msg →
      getTranslationAndAnalysis g2 i2 f2 t2 p2 e2
          = (none, none, some ("Translation error: " ++ msg)) := by
  constructor
  · have hloop : (translateLoopT g (htmlTranslationPrompt fromLang toLang)
        input els).2 = Except.error err := by
      rw [hels,
        translateLoopT_append_snd g (htmlTranslationPrompt fromLang toLang)
          pre (efail :: post) input acc2 hpre]
      exact translateLoopT_error_head g _ acc2 err efail post hne hfail
    have hstep : (translateStep g input fromLang toLang true els).2
        = Except.error err := by
      have hdef : (translateStep g input fromLang toLang true els).2
          = match (translateLoopT g (htmlTranslationPrompt fromLang toLang)
              input els).2 with
            | Except.ok th => Except.ok (finalHtmlCleanup th)
            | Except.error e => Except.error e := rfl
      rw [hdef, hloop]
    have hrun : (runTAT g input fromLang toLang true els).2 = Except.error err :=
      withAnalysis_error g _ err hstep
    simp [getTranslationAndAnalysis, hrun]
  · intro g2 i2 f2 t2 p2 e2 msg h
    simp [getTranslationAndAnalysis, h]

/-- C3 witness: three chunks `a`, `b`, `c`; the gateway succeeds on chunk 1
and fails on chunk 2; the operation yields no translation, no analysis, and
the error message. -/
theorem gateway_failure_yields_nothing_witness :
    getTranslationAndAnalysis gFail "<p>a</p><p>b</p><p>c</p>" "Norwegian"
        "English" true elsABC
      = (none, none, some ("Translation error: " ++ "boom")) :=
  (gateway_failure_yields_nothing gFail "<p>a</p><p>b</p><p>c</p>" "Norwegian"
    "English" elsABC [elA] [elC] elB "<p>T</p><p>b</p><p>c</p>" "boom"
    (by decide) (by decide) (by decide) (by decide)).1

/-- C4 counterexample: this variant of `clean_text` has no
preamble-stripping pattern at all, so the canonical preamble
`Here is the translation:` survives sanitization verbatim. -/
theorem preamble_not_removed :
    clean_text (PyInput.ofString "Here is the translation: Hei") false
      = "Here is the translation: Hei" := by decide

/-- C4 amended: the sanitizer removes only TextBlock wrappers, markdown
bold markers, userStyle tags and empty parentheses; conversational
preambles are left in place. -/
theorem preamble_left_in_place :
    clean_text (PyInput.ofString "Here is the translation: God morgen") false
      = "Here is the translation: God morgen" := by decide

/-- C5 counterexample: a literal backslash-n (two characters) is not
whitespace, matches none of the patterns in `clean_text`, and is therefore
not collapsed into a space. -/
theorem literal_escape_not_collapsed :
    clean_text (PyInput.ofString "a\\nb") false = "a\\nb" ∧
    ("a\\nb" : String) ≠ "a b" :=
  ⟨by decide, by decide⟩

/-- C5 amended: literal two-character `\n` and `\t` escape sequences pass
through the sanitizer unchanged; only actual whitespace characters are
collapsed. -/
theorem literal_escapes_left_unchanged :
    clean_text (PyInput.ofString "a\\nb c\\td") false = "a\\nb c\\td" := by decide

/-- C6 counterexample: with the preserve-markup flag set, the regex at
line 52 still deletes a well-formed `<userStyle>` tag pair together with
its content and angle brackets. -/
theorem userStyle_tag_removed :
    clean_text (PyInput.ofString "<userStyle>x</userStyle>") true = "" := by decide

/-- C6 amended: with preserve-markup true, angle brackets of well-formed
tags survive sanitization (including across collapsed inter-tag
whitespace) — except `userStyle` tags, which are removed entirely. -/
theorem markup_preserved_except_userStyle :
    clean_text (PyInput.ofString "<p>Hello</p>") true = "<p>Hello</p>" ∧
    clean_text (PyInput.ofString "<b>Hi</b> <i>x</i>") true = "<b>Hi</b><i>x</i>" ∧
    clean_text (PyInput.ofString "<userStyle>normal</userStyle>") true = "" :=
  ⟨by decide, by decide, by decide⟩

/-- C7 counterexample: on a non-string (un-parseable) input the code does
not return the stringified input merely trimmed of whitespace — the full
cleanup chain also collapses the interior double space. -/
theorem fallback_not_merely_trimmed :
    clean_text (PyInput.other "x  y") false = "x y" ∧
    ("x y" : String) ≠ "x  y" :=
  ⟨by decide, by decide⟩

/-- C7 amended: `clean_text` is total — every input (string, fragment
list, or any other stringified value) with either flag produces a string —
and the output never starts or ends with a whitespace character, because
the chain ends in `strip()` followed by a newline-run reduction that
preserves both ends. -/
theorem cleanText_total_output_trimmed (input : PyInput) (p : Bool) :
    noBoundWS (clean_text input p) = true :=
  noBoundWS_strip_nl3 _

/-- C8: for non-empty text and distinct languages, the whole-text
translation prompt contains the input text literally, and each chunk
prompt contains its element's text literally. -/
theorem translationPrompt_contains_text (text fromLang toLang : String)
    (h1 : text ≠ "") (h2 : fromLang ≠ toLang) :
    ContainsS text (translationPrompt fromLang toLang text) ∧
    ∀ (base : String) (e : Element), e.text = text →
      ContainsS text (elementPrompt base e) := by
  constructor
  · refine ⟨("Translate this from " ++ fromLang ++ " to " ++ toLang ++ ":\n\n").data,
      [], ?_⟩
    simp [translationPrompt, ContainsS, String.data_append]
  · intro base e he
    refine ⟨((if e.tag ∈ headingTags then base ++ headingNote else base) ++
      "\n\nText to translate: ").data, [], ?_⟩
    simp [elementPrompt, he, String.data_append]

/-- C8 witness at a concrete request. -/
theorem translationPrompt_contains_text_witness :
    ContainsS "Hei" (translationPrompt "Norwegian" "English" "Hei") :=
  (translationPrompt_contains_text "Hei" "Norwegian" "English"
    (by decide) (by decide)).1

/-- C9 counterexample: pressing Translate with the empty string in session
state issues zero gateway calls, but nothing is reported to the user
either — the messages list stays empty, contradicting the claimed
user-visible `EmptyInput` report. -/
theorem empty_input_not_reported :
    (translateClick gOk (some "") "Norwegian" "English" false []).messages = [] ∧
    (translateClick gOk (some "") "Norwegian" "English" false []).trace = [] :=
  ⟨rfl, rfl⟩

/-- C9 amended: empty (or absent) input makes the Translate handler do
nothing at all — zero gateway calls, no result, and no message shown. -/
theorem empty_input_zero_gateway_calls
    (g : String → Except String PyInput) (fromLang toLang : String)
    (p : Bool) (els : List Element) :
    translateClick g (some "") fromLang toLang p els = ⟨none, none, [], []⟩ ∧
    translateClick g none fromLang toLang p els = ⟨none, none, [], []⟩ :=
  ⟨rfl, rfl⟩

/-- C10: in every successful run, whatever the source text, languages,
flag, elements and gateway, the second gateway call is made with the one
fixed `analysisPrompt` — so any two runs issue an identical
analysis-request message, independent of source and translated text. -/
theorem analysisPrompt_constant_across_runs
    (g1 g2 : String → Except String PyInput) (i1 f1 t1 i2 f2 t2 : String)
    (p1 p2 : Bool) (e1 e2 : List Element) (r1 r2 : String × String)
    (h1 : (runTAT g1 i1 f1 t1 p1 e1).2 = Except.ok r1)
    (h2 : (runTAT g2 i2 f2 t2 p2 e2).2 = Except.ok r2) :
    (runTAT g1 i1 f1 t1 p1 e1).1.getLast? = some analysisPrompt ∧
    (runTAT g1 i1 f1 t1 p1 e1).1.getLast?
      = (runTAT g2 i2 f2 t2 p2 e2).1.getLast? := by
  have k1 : (runTAT g1 i1 f1 t1 p1 e1).1.getLast? = some analysisPrompt :=
    withAnalysis_ok_trace g1 _ r1 h1
  have k2 : (runTAT g2 i2 f2 t2 p2 e2).1.getLast? = some analysisPrompt :=
    withAnalysis_ok_trace g2 _ r2 h2
  exact ⟨k1, by rw [k1, k2]⟩

/-- C10 witness: two runs with different source texts issue the same final
analysis prompt. -/
theorem analysisPrompt_constant_across_runs_witness :
    (runTAT gOk "Hei" "Norwegian" "English" false []).1.getLast?
        = some analysisPrompt ∧
    (runTAT gOk "Hei" "Norwegian" "English" false []).1.getLast?
      = (runTAT gOk "Hei verden" "Norwegian" "English" false []).1.getLast? :=
  analysisPrompt_constant_across_runs gOk gOk "Hei" "Norwegian" "English"
    "Hei verden" "Norwegian" "English" false false [] [] ("OK", "OK") ("OK", "OK")
    (by decide) (by decide)
